import Mathlib

/-
Verification of the interactive MCP diagnostic client (any_client.py).

Strings from the Python source are modelled as `List Char`; Python `str`
operations (`strip`, `split`, `startswith`, `isdigit`) are embedded as
executable functions on `List Char`.  `json.loads` / `json.dumps` (the parts
of the Python standard library the client depends on) are embedded as a
fuel-based recursive-descent parser and serializer over a `Json` value type;
JSON numbers are modelled as arbitrary-precision integers (float literals
are outside the model), and `\uXXXX` escapes for surrogate code points are
rejected rather than paired.
-/

/-- Characters stripped by Python `str.strip()` (ASCII whitespace). -/
def isPySpace (c : Char) : Bool :=
  c = ' ' || c = '\t' || c = '\n' || c = '\r' || c = '\x0b' || c = '\x0c'

/-- Abbreviation turning a Lean string literal into the `List Char` model. -/
def toL (s : String) : List Char := s.toList

/-- Drop leading Python whitespace. -/
def dropLead (s : List Char) : List Char := s.dropWhile isPySpace

/-- Drop trailing Python whitespace. -/
def dropTrail (s : List Char) : List Char := (s.reverse.dropWhile isPySpace).reverse

/-- Python `str.strip()`. -/
def pyStrip (s : List Char) : List Char := dropTrail (dropLead s)

/-- Predicate: `s` carries no trailing whitespace. -/
def noTrailWs (s : List Char) : Prop := dropTrail s = s

instance : DecidablePred noTrailWs :=
  fun s => inferInstanceAs (Decidable (dropTrail s = s))

/-- Python `str.startswith(p)`. -/
def listStartsWith (p s : List Char) : Bool :=
  match p, s with
  | [], _ => true
  | _ :: _, [] => false
  | a :: ps, b :: ss => a = b && listStartsWith ps ss

/-- ASCII decimal digit test (model of the digits accepted by `int()`). -/
def isAsciiDigit (c : Char) : Bool := 48 ≤ c.toNat && c.toNat ≤ 57

/-- Python `str.isdigit()` restricted to ASCII: nonempty and all digits. -/
def pyIsDigit (s : List Char) : Bool := !s.isEmpty && s.all isAsciiDigit

/-- Decimal digits to the `Nat` they denote (model of `int(...)` on digits). -/
def digitsToNat (s : List Char) : Nat :=
  s.foldl (fun a c => 10 * a + (c.toNat - 48)) 0

/-- Auxiliary for decimal printing, with fuel bounding the digit count. -/
def natDigitsAux : Nat → Nat → List Char
  | 0, _ => []
  | fuel + 1, n =>
      if n < 10 then [Char.ofNat (48 + n)]
      else natDigitsAux fuel (n / 10) ++ [Char.ofNat (48 + n % 10)]

/-- Decimal representation of a natural number (Python `str(n)` for `n ≥ 0`). -/
def natDigits (n : Nat) : List Char := natDigitsAux (n + 1) n

/-- Decimal representation of an integer (Python `str`/`repr` of an `int`). -/
def intChars (n : Int) : List Char :=
  if n < 0 then '-' :: natDigits (-n).toNat else natDigits n.toNat

/-- JSON values, as produced by Python `json.loads`: objects keep key
insertion order (Python `dict`), numbers are modelled as integers. -/
inductive Json where
  | null : Json
  | bool (b : Bool) : Json
  | num (n : Int) : Json
  | str (s : List Char) : Json
  | arr (xs : List Json) : Json
  | obj (kvs : List (List Char × Json)) : Json

/-- First key of a JSON object (used to separate distinct object values). -/
def firstKeyOf : Json → List Char
  | Json.obj ((k, _) :: _) => k
  | _ => []

/-- Python `dict` insertion `d[k] = v`: an existing key keeps its position
and gets the new value, a new key is appended. -/
def dictInsert {V : Type} (m : List (List Char × V)) (k : List Char) (v : V) :
    List (List Char × V) :=
  match m with
  | [] => [(k, v)]
  | (k0, v0) :: tl => if k0 = k then (k0, v) :: tl else (k0, v0) :: dictInsert tl k v

/-- Python `dict` lookup: first (unique) binding of `k`. -/
def dictLookup {V : Type} (m : List (List Char × V)) (k : List Char) : Option V :=
  match m with
  | [] => none
  | (k0, v0) :: tl => if k0 = k then some v0 else dictLookup tl k

/-- JSON inter-token whitespace (as in Python's json module). -/
def isJsonWsChar (c : Char) : Bool := c = ' ' || c = '\t' || c = '\n' || c = '\r'

/-- Skip JSON whitespace. -/
def skipWs (s : List Char) : List Char := s.dropWhile isJsonWsChar

/-- Hex digit value of a character, if it is one. -/
def hexVal (c : Char) : Option Nat :=
  if 48 ≤ c.toNat ∧ c.toNat ≤ 57 then some (c.toNat - 48)
  else if 97 ≤ c.toNat ∧ c.toNat ≤ 102 then some (c.toNat - 87)
  else if 65 ≤ c.toNat ∧ c.toNat ≤ 70 then some (c.toNat - 55)
  else none

/-- Body of a JSON string literal after the opening quote: returns the
decoded characters and the input after the closing quote.  Unescaped
control characters are rejected (strict mode), as are surrogate
`\uXXXX` escapes (pair decoding is outside the model). -/
def parseStringBody : List Char → Option (List Char × List Char)
  | [] => none
  | '"' :: rest => some ([], rest)
  | '\\' :: 'u' :: a :: b :: c :: d :: rest =>
      match hexVal a, hexVal b, hexVal c, hexVal d with
      | some ha, some hb, some hc, some hd =>
          let n := ((ha * 16 + hb) * 16 + hc) * 16 + hd
          if 0xd800 ≤ n ∧ n ≤ 0xdfff then none
          else (parseStringBody rest).map (fun p => (Char.ofNat n :: p.1, p.2))
      | _, _, _, _ => none
  | '\\' :: e :: rest =>
      let dec : Option Char :=
        if e = '"' then some '"'
        else if e = '\\' then some '\\'
        else if e = '/' then some '/'
        else if e = 'b' then some '\x08'
        else if e = 'f' then some '\x0c'
        else if e = 'n' then some '\n'
        else if e = 'r' then some '\r'
        else if e = 't' then some '\t'
        else none
      match dec with
      | some ch => (parseStringBody rest).map (fun p => (ch :: p.1, p.2))
      | none => none
  | c :: rest =>
      if c.toNat < 32 then none
      else (parseStringBody rest).map (fun p => (c :: p.1, p.2))

/-- Integer part of a JSON number per the JSON grammar (`0` or a nonzero
digit followed by digits); a following `.`/`e`/`E` (a float literal) is
outside the model and rejected. -/
def parseNatPart (s : List Char) : Option (Nat × List Char) :=
  match s with
  | [] => none
  | c :: rest =>
      if c = '0' then
        match rest with
        | r :: _ => if r = '.' || r = 'e' || r = 'E' then none else some (0, rest)
        | [] => some (0, rest)
      else if isAsciiDigit c then
        let ds := c :: rest.takeWhile isAsciiDigit
        let r := rest.dropWhile isAsciiDigit
        match r with
        | x :: _ => if x = '.' || x = 'e' || x = 'E' then none else some (digitsToNat ds, r)
        | [] => some (digitsToNat ds, r)
      else none

/-- A JSON number token (optional minus then integer part). -/
def parseNumber (s : List Char) : Option (Json × List Char) :=
  match s with
  | '-' :: rest => (parseNatPart rest).map (fun p => (Json.num (-(p.1 : Int)), p.2))
  | _ => (parseNatPart s).map (fun p => (Json.num (p.1 : Int), p.2))

/-- Parser state: a value, array elements, or object members being read. -/
inductive PMode where
  | pvalue : PMode
  | elemsFirst : PMode
  | elemsNext (acc : List Json) : PMode
  | membersFirst : PMode
  | membersNext (acc : List (List Char × Json)) : PMode

/-- Recursive-descent JSON parser (model of Python `json.loads`' grammar),
fuel-bounded so that it is structurally recursive; each call consumes one
unit of fuel, and `json_loads` supplies fuel ample for its input. -/
def parseF : Nat → PMode → List Char → Option (Json × List Char)
  | 0, _, _ => none
  | fuel + 1, PMode.pvalue, s =>
      match skipWs s with
      | '\x7b' :: r => parseF fuel PMode.membersFirst r
      | '[' :: r => parseF fuel PMode.elemsFirst r
      | '"' :: r => (parseStringBody r).map (fun p => (Json.str p.1, p.2))
      | 't' :: 'r' :: 'u' :: 'e' :: r => some (Json.bool true, r)
      | 'f' :: 'a' :: 'l' :: 's' :: 'e' :: r => some (Json.bool false, r)
      | 'n' :: 'u' :: 'l' :: 'l' :: r => some (Json.null, r)
      | c :: r => if c = '-' || isAsciiDigit c then parseNumber (c :: r) else none
      | [] => none
  | fuel + 1, PMode.elemsFirst, s =>
      match skipWs s with
      | ']' :: r => some (Json.arr [], r)
      | _ =>
          match parseF fuel PMode.pvalue s with
          | some (v, r) => parseF fuel (PMode.elemsNext [v]) r
          | none => none
  | fuel + 1, PMode.elemsNext acc, s =>
      match skipWs s with
      | ',' :: r =>
          match parseF fuel PMode.pvalue r with
          | some (v, r2) => parseF fuel (PMode.elemsNext (acc ++ [v])) r2
          | none => none
      | ']' :: r => some (Json.arr acc, r)
      | _ => none
  | fuel + 1, PMode.membersFirst, s =>
      match skipWs s with
      | '\x7d' :: r => some (Json.obj [], r)
      | '"' :: r =>
          match parseStringBody r with
          | some (k, r2) =>
              match skipWs r2 with
              | ':' :: r3 =>
                  match parseF fuel PMode.pvalue r3 with
                  | some (v, r4) => parseF fuel (PMode.membersNext (dictInsert [] k v)) r4
                  | none => none
              | _ => none
          | none => none
      | _ => none
  | fuel + 1, PMode.membersNext acc, s =>
      match skipWs s with
      | '\x7d' :: r => some (Json.obj acc, r)
      | ',' :: r =>
          match skipWs r with
          | '"' :: r1 =>
              match parseStringBody r1 with
              | some (k, r2) =>
                  match skipWs r2 with
                  | ':' :: r3 =>
                      match parseF fuel PMode.pvalue r3 with
                      | some (v, r4) => parseF fuel (PMode.membersNext (dictInsert acc k v)) r4
                      | none => none
                  | _ => none
              | none => none
          | _ => none
      | _ => none

/-- Model of Python `json.loads`: parse one value and require only
whitespace after it (otherwise Python raises `Extra data`); any failure is
`none` (Python raises `json.JSONDecodeError`). -/
def json_loads (s : List Char) : Option Json :=
  match parseF (2 * s.length + 8) PMode.pvalue s with
  | some (v, rest) => if skipWs rest = [] then some v else none
  | none => none

/-- One escaped output character of `json.dumps(..., ensure_ascii=False)`:
only `"`, `\` and control characters are escaped; everything else — in
particular non-ASCII — is emitted literally. -/
def escJsonChar (c : Char) : List Char :=
  if c = '"' then ['\\', '"']
  else if c = '\\' then ['\\', '\\']
  else if c = '\n' then ['\\', 'n']
  else if c = '\t' then ['\\', 't']
  else if c = '\r' then ['\\', 'r']
  else if c = '\x08' then ['\\', 'b']
  else if c = '\x0c' then ['\\', 'f']
  else if c.toNat < 32 then
    ['\\', 'u', '0', '0',
     Char.ofNat (if c.toNat / 16 < 10 then 48 + c.toNat / 16 else 87 + c.toNat / 16),
     Char.ofNat (if c.toNat % 16 < 10 then 48 + c.toNat % 16 else 87 + c.toNat % 16)]
  else [c]

/-- A JSON string literal as serialized by `json.dumps(..., ensure_ascii=False)`. -/
def quoteJsonStr (s : List Char) : List Char :=
  '"' :: (s.map escJsonChar).flatten ++ ['"']

/- Fuel that strictly dominates the nesting depth of a JSON value (it counts
one unit per constructor along every path), so `dumps_fuel` below never
exhausts it. -/
mutual
/-- Fuel bound for serializing one JSON value. -/
def jsonFuel : Json → Nat
  | Json.null => 1
  | Json.bool _ => 1
  | Json.num _ => 1
  | Json.str _ => 1
  | Json.arr xs => 1 + jsonFuelA xs
  | Json.obj kvs => 1 + jsonFuelO kvs
def jsonFuelA : List Json → Nat
  | [] => 0
  | x :: xs => jsonFuel x + jsonFuelA xs
def jsonFuelO : List (List Char × Json) → Nat
  | [] => 0
  | (_, v) :: ps => jsonFuel v + jsonFuelO ps
end

/-- Newline followed by the 2-space indentation of nesting depth `d`
(`json.dumps(..., indent=2)` layout). -/
def indentNl (d : Nat) : List Char := '\n' :: List.replicate (2 * d) ' '

/-- Model of Python `json.dumps(v, indent=2, ensure_ascii=False)`, fuel-bounded
so that it is structurally recursive; `json_dumps` supplies fuel that covers
any nesting depth of its argument. -/
def dumps_fuel : Nat → Nat → Json → List Char
  | 0, _, _ => []
  | _ + 1, _, Json.null => toL "null"
  | _ + 1, _, Json.bool true => toL "true"
  | _ + 1, _, Json.bool false => toL "false"
  | _ + 1, _, Json.num n => intChars n
  | _ + 1, _, Json.str s => quoteJsonStr s
  | _ + 1, _, Json.arr [] => toL "[]"
  | fuel + 1, d, Json.arr (x :: xs) =>
      '[' :: indentNl (d + 1) ++
        List.intercalate (',' :: indentNl (d + 1)) ((x :: xs).map (dumps_fuel fuel (d + 1))) ++
        indentNl d ++ [']']
  | _ + 1, _, Json.obj [] => toL "\x7b\x7d"
  | fuel + 1, d, Json.obj (p :: ps) =>
      '\x7b' :: indentNl (d + 1) ++
        List.intercalate (',' :: indentNl (d + 1))
          ((p :: ps).map (fun kv => quoteJsonStr kv.1 ++ ':' :: ' ' :: dumps_fuel fuel (d + 1) kv.2)) ++
        indentNl d ++ ['\x7d']

/-- Model of `json.dumps(v, indent=2, ensure_ascii=False)`; the `jsonFuel` fuel
strictly dominates the nesting depth of `v`, so the bound is never hit. -/
def json_dumps (v : Json) : List Char := dumps_fuel (jsonFuel v) 0 v

/-- Outcome of one iteration of `input_json`'s `while True` loop, after one
line has been read and appended: either the parse succeeded and the parsed
value is returned, or the loop continues with a new accumulated buffer
(`errored` records that `"invalid json format"` was printed and the buffer
reset). -/
inductive IterOut where
  | ret (v : Json) : IterOut
  | cont (buf : List Char) (errored : Bool) : IterOut

/-- One iteration of `FastMcpClient.input_json` (lines 117-131): append the
line, strip, early-reject a buffer that does not start with a brace
(printing the error and resetting the buffer) — and only otherwise attempt
the JSON parse.  The parse function is a parameter: the reject branch is
taken before and independently of any parse. -/
def input_json_iter (parse : List Char → Option Json) (buf line : List Char) : IterOut :=
  let b := pyStrip (buf ++ line)
  if !listStartsWith (toL "\x7b") b then IterOut.cont [] true
  else
    match parse b with
    | some v => IterOut.ret v
    | none => IterOut.cont b false

/-- Model of `FastMcpClient.input_json` over a list of available input lines, with
the current accumulated buffer; returns the parsed value and the unconsumed
lines, or `none` when the input ends first (Python: `input()` raises
`EOFError`, which propagates — fatal). -/
def input_json_aux (parse : List Char → Option Json) :
    List Char → List (List Char) → Option (Json × List (List Char))
  | _, [] => none
  | buf, l :: rest =>
      match input_json_iter parse buf l with
      | IterOut.ret v => some (v, rest)
      | IterOut.cont b _ => input_json_aux parse b rest

/-- Model of `FastMcpClient.input_json` from an empty buffer, with Python's
`json.loads` as the parser. -/
def input_json (ls : List (List Char)) : Option (Json × List (List Char)) :=
  input_json_aux json_loads [] ls

/-- The transport configuration derived in `FastMcpClient.__init__`:
either a stdio subprocess spec or a remote (sse / streamable http) spec. -/
inductive TransportConfig where
  | stdio (command : List Char) (args : List (List Char))
      (env : List (List Char × List Char)) : TransportConfig
  | remote (url : List Char) (headers : List (List Char × List Char))
      (transport : List Char) (sseReadTimeoutSecs : Nat) : TransportConfig
deriving DecidableEq

/-- Python `server_url.strip().split(" ", 1)` on an already-stripped input:
the text before the first space character, and — when a space exists —
everything after it. -/
def splitFirstSpace (s : List Char) : List Char × Option (List Char) :=
  match s with
  | [] => ([], none)
  | c :: rest =>
      if c = ' ' then ([], some rest)
      else
        let p := splitFirstSpace rest
        (c :: p.1, p.2)

/-- Python `str.split()` with no separator: split on whitespace runs,
dropping empty pieces; fuel-bounded structural recursion. -/
def pySplitWsAux : Nat → List Char → List (List Char)
  | 0, _ => []
  | fuel + 1, s =>
      match s.dropWhile isPySpace with
      | [] => []
      | c :: rest =>
          (c :: rest.takeWhile (fun x => !isPySpace x)) ::
            pySplitWsAux fuel (rest.dropWhile (fun x => !isPySpace x))

/-- Python `str.split()` (whitespace-run splitting). -/
def pySplitWs (s : List Char) : List (List Char) := pySplitWsAux (s.length + 1) s

/-- Model of `FastMcpClient.__init__` (lines 27-52): for `"stdio"`, split the stripped
url at the first space into the command and the rest, split the rest on
whitespace into the argument list, and pass the header map through as the
subprocess environment; otherwise use the url verbatim with the headers and
a 3600-second sse read timeout. -/
def mkTransportConfig (server_url : List Char) (transport_type : List Char)
    (headers : List (List Char × List Char)) : TransportConfig :=
  if transport_type = toL "stdio" then
    let parts := splitFirstSpace (pyStrip server_url)
    match parts.2 with
    | some rest => TransportConfig.stdio parts.1 (pySplitWs rest) headers
    | none => TransportConfig.stdio parts.1 [] headers
  else
    TransportConfig.remote server_url headers transport_type 3600

/-- Whether `needle` occurs as a contiguous substring (Python `needle in hay`). -/
def hasSubList (needle : List Char) : List Char → Bool
  | [] => needle.isEmpty
  | c :: rest => listStartsWith needle (c :: rest) || hasSubList needle rest

/-- The transport-kind guess in `main` (lines 190-195): an empty `-type`
is inferred from the url — `"sse"` when the url contains the substring
`"sse"`, otherwise `"http"`. -/
def inferKind (mcp_type url : List Char) : List Char :=
  if mcp_type = [] then
    if hasSubList (toL "sse") url then toL "sse" else toL "http"
  else mcp_type

/-- Outcome of `main`'s endpoint acquisition (lines 174-195): either the
process returns after rejecting an interactively entered non-http url, or
it proceeds with a url and a (possibly inferred) transport kind. -/
inductive UrlOutcome where
  | rejected : UrlOutcome
  | proceed (url : List Char) (mcp_type : List Char) : UrlOutcome
deriving DecidableEq

/-- Model of the url flow of `main`: with no `-url` argument the process prompts, strips
the entered line, and — regardless of the `-type` argument — rejects it
with "URL string must start with http" unless it starts with `"http"`. -/
def main_url_flow (arg_url arg_type entered : List Char) : UrlOutcome :=
  if arg_url = [] then
    let url := pyStrip entered
    if !listStartsWith (toL "http") url then UrlOutcome.rejected
    else UrlOutcome.proceed url (inferKind arg_type url)
  else UrlOutcome.proceed arg_url (inferKind arg_type arg_url)

/-- Python `header.split(":", 1)` in `main` (line 209): `some (key, value)`
when a colon is present (split at the first one), `none` otherwise
(`len(parts) == 2` fails). -/
def headerSplit (h : List Char) : Option (List Char × List Char) :=
  match h with
  | [] => none
  | c :: rest =>
      if c = ':' then some ([], rest)
      else (headerSplit rest).map (fun p => (c :: p.1, p.2))

/-- The header-parsing loop of `main` (lines 207-216): build the header
dict, trimming key and value; entries without a colon are reported as
invalid ("Invalid header format: ...") and skipped.  Returns the final
dict and the list of entries reported invalid. -/
def parse_headers (hs : List (List Char)) :
    List (List Char × List Char) × List (List Char) :=
  hs.foldl
    (fun acc h =>
      match headerSplit h with
      | some p => (dictInsert acc.1 (pyStrip p.1) (pyStrip p.2), acc.2)
      | none => (acc.1, acc.2 ++ [h]))
    ([], [])

/-- A tool of the catalog: its name together with the rest of its
`model_dump()` document. -/
structure Tool where
  name : List Char
  extra : List (List Char × Json)

/-- Model of `tool.model_dump()`: a JSON object carrying the tool's `name` field. -/
def model_dump (t : Tool) : Json :=
  Json.obj ((toL "name", Json.str t.name) :: t.extra)

/-- Model of `FastMcpClient.cmd_show_tool_schema` (lines 69-76): an index that is
negative or at/after the catalog length returns `None` (no print, no
error); otherwise the tool's schema is printed and `tool_schema["name"]`
— the tool's name — is returned. -/
def cmd_show_tool_schema (tools : List Tool) (index : Int) : Option (List Char) :=
  if index < 0 ∨ (tools.length : Int) ≤ index then none
  else (tools.get? index.toNat).map Tool.name

/-- The schema text printed by `cmd_show_tool_schema` on an in-range index
(`json.dumps(tool_schema, indent=2, ensure_ascii=False)`). -/
def show_schema_out (tools : List Tool) (index : Int) : List (List Char) :=
  if index < 0 ∨ (tools.length : Int) ≤ index then []
  else
    match tools.get? index.toNat with
    | some t => [json_dumps (model_dump t)]
    | none => []

/-- Left-justified minimum-width-4 integer field of the table rows. -/
def padLeft4 (s : List Char) : List Char := s ++ List.replicate (4 - s.length) ' '

/-- The lines printed by `FastMcpClient.cmd_list_tools` (lines 78-83):
banner, header, one `index | name` row per tool (1-based), banner. -/
def list_tools_out (tools : List Tool) : List (List Char) :=
  toL "==================================" ::
  toL "index | tool name" ::
  ((List.range tools.length).zip tools).map
    (fun p => ' ' :: padLeft4 (natDigits (p.1 + 1)) ++ toL " | " ++ p.2.name) ++
  [toL "=================================="]

/-- One content segment of a tool-call result: a `text` segment carries its
string payload, any other segment is modelled by the text Python `print`
would produce for it. -/
inductive Segment where
  | text (s : List Char) : Segment
  | other (rep : List Char) : Segment

/-- A `CallToolResult`: either it has the `content` attribute (a list of
segments), or it does not and `print(result)` shows its default
representation. -/
inductive ToolResult where
  | withContent (segs : List Segment) : ToolResult
  | noContentAttr (rep : List Char) : ToolResult

/-- The banner printed first by `pretty_print_tool_result` (line 99). -/
def bannerLine : List Char := toL "\n================ tool result ===============\n"

/-- Rendering of one content segment (lines 101-110): a text payload that
parses as JSON is re-serialized with `json.dumps(..., indent=2,
ensure_ascii=False)`; a payload that does not parse (Python raises and
catches `json.JSONDecodeError`) is printed verbatim; a non-text segment is
printed by its representation. -/
def render_segment : Segment → List Char
  | Segment.text s =>
      match json_loads s with
      | some v => json_dumps v
      | none => s
  | Segment.other rep => rep

/-- Model of `FastMcpClient.pretty_print_tool_result` (lines 98-112), as the list of
printed outputs: the banner, then each segment in order; a result without
the `content` attribute falls back to `print(result)`. -/
def pretty_print_tool_result : ToolResult → List (List Char)
  | ToolResult.withContent segs => bannerLine :: segs.map render_segment
  | ToolResult.noContentAttr rep => [bannerLine, rep]

/-- The black-box transport call `client.call_tool(name, args, ...)`: it
either completes with a `CallToolResult` or raises, with `str(e)` as the
message.  (Progress notifications only print and do not affect control
flow; they are outside this model.) -/
inductive CallOutcome where
  | ok (r : ToolResult) : CallOutcome
  | failMsg (e : List Char) : CallOutcome

/-- Model of `FastMcpClient.cmd_call_tool` (lines 89-96), as the list of printed
outputs: the call banner, then either the pretty-printed result or — when
the invocation raises — the locally caught report naming the tool and the
error.  Nothing escapes this function. -/
def cmd_call_tool (callTool : List Char → Json → CallOutcome)
    (tool_name : List Char) (arguments : Json) : List (List Char) :=
  (toL "call tool " ++ tool_name ++ toL " ...") ::
  match callTool tool_name arguments with
  | CallOutcome.ok r => pretty_print_tool_result r
  | CallOutcome.failMsg e =>
      [toL "Failed to call tool \x27" ++ tool_name ++ toL "\x27: " ++ e]

/-- State of the interactive state machine: awaiting a command, or inside
`input_json` gathering the call arguments for tool `tool_name` with the
current accumulated buffer. -/
inductive Mode where
  | command : Mode
  | readArgs (tool_name : List Char) (buf : List Char) : Mode

/-- How a run of the command loop ended. -/
inductive LoopExit where
  | quit : LoopExit
  | eofFatal : LoopExit
  | typeErrorFatal (msg : List Char) : LoopExit
deriving DecidableEq

/-- The `TypeError` Python raises for `await None`: `cmd_list_tools` (line
78) is a plain `def` returning `None`, yet `cmd_loop` line 144 executes
`await self.cmd_list_tools()`, so after the call prints the table the
`await` raises. -/
def awaitNoneMsg : List Char :=
  toL "TypeError: object NoneType cannot be used in await expression"

/-- Model of `FastMcpClient.cmd_loop` (lines 133-155) together with the `input_json`
it delegates to, run over the available input lines: returns every printed
output line and how the loop ended.  Exhausting the input models `input()`
raising `EOFError` (propagated, fatal).  Dispatch per iteration: empty →
re-prompt; `list` → the table is printed by the call, then `await` of its
`None` result raises `TypeError`; `dump` → schema file written; `quit` →
loop ends; digits → `cmd_show_tool_schema(int(cmd)-1)`, and only a truthy
(nonempty) returned name leads into `input_json` and then
`cmd_call_tool`; anything else → "Unknown command". -/
def cmd_loop_run (callTool : List Char → Json → CallOutcome) (tools : List Tool) :
    Mode → List (List Char) → List (List Char) × LoopExit
  | _, [] => ([], LoopExit.eofFatal)
  | Mode.command, line :: rest =>
      let c := pyStrip line
      if c = [] then cmd_loop_run callTool tools Mode.command rest
      else if c = toL "list" then (list_tools_out tools, LoopExit.typeErrorFatal awaitNoneMsg)
      else if c = toL "dump" then
        let p := cmd_loop_run callTool tools Mode.command rest
        (toL "schema.json saved" :: p.1, p.2)
      else if c = toL "quit" then ([], LoopExit.quit)
      else if pyIsDigit c then
        let index : Int := (digitsToNat c : Int) - 1
        match cmd_show_tool_schema tools index with
        | none => cmd_loop_run callTool tools Mode.command rest
        | some tool_name =>
            if tool_name = [] then
              let p := cmd_loop_run callTool tools Mode.command rest
              (show_schema_out tools index ++ p.1, p.2)
            else
              let p := cmd_loop_run callTool tools (Mode.readArgs tool_name []) rest
              (show_schema_out tools index ++ p.1, p.2)
      else
        let p := cmd_loop_run callTool tools Mode.command rest
        (toL "Unknown command" :: p.1, p.2)
  | Mode.readArgs tool_name buf, line :: rest =>
      match input_json_iter json_loads buf line with
      | IterOut.ret v =>
          let p := cmd_loop_run callTool tools Mode.command rest
          (cmd_call_tool callTool tool_name v ++ p.1, p.2)
      | IterOut.cont b errored =>
          let p := cmd_loop_run callTool tools (Mode.readArgs tool_name b) rest
          ((if errored then [toL "invalid json format"] else []) ++ p.1, p.2)

/-- A concrete transport stub whose every call raises. -/
def ctDummy : List Char → Json → CallOutcome := fun _ _ => CallOutcome.failMsg (toL "boom")

/-- A concrete two-tool catalog. -/
def toolsTwo : List Tool := [⟨toL "alpha", []⟩, ⟨toL "beta", []⟩]

/-- An out-of-range index never yields a name (`cmd_show_tool_schema`
returns `None` before touching the catalog). -/
theorem show_schema_none (tools : List Tool) (i : Int)
    (h : i < 0 ∨ (tools.length : Int) ≤ i) : cmd_show_tool_schema tools i = none := by
  simp [cmd_show_tool_schema, h]

/-- C1: the claim says `"list"` dispatches to `cmd_list_tools`, prints the
table, and the loop then continues, never ending on an error of its own.
The code instead executes `await self.cmd_list_tools()` where
`cmd_list_tools` is a plain `def` returning `None`: the table is printed by
the call, and the `await` then raises `TypeError`, which nothing catches —
the loop terminates.  (`"quit"` does terminate the loop normally.) -/
theorem claim_c1_list_crashes_loop :
    cmd_loop_run ctDummy toolsTwo Mode.command [toL "list", toL "quit"] =
      (list_tools_out toolsTwo, LoopExit.typeErrorFatal awaitNoneMsg) ∧
    cmd_loop_run ctDummy toolsTwo Mode.command [toL "quit"] = ([], LoopExit.quit) :=
  ⟨rfl, rfl⟩

/-- C3: whenever the accumulated buffer (after trimming) does not start
with a brace, the reader rejects — for every parse function, i.e. before
and independently of any JSON parse — prints the error, resets the buffer
to empty, and re-prompts (the loop continues on the remaining lines with an
empty buffer). -/
theorem claim_c3_early_reject :
    ∀ (parse : List Char → Option Json) (buf line : List Char) (rest : List (List Char)),
      listStartsWith (toL "\x7b") (pyStrip (buf ++ line)) = false →
      input_json_iter parse buf line = IterOut.cont [] true ∧
      input_json_aux parse buf (line :: rest) = input_json_aux parse [] rest := by
  intro parse buf line rest h
  constructor
  · simp [input_json_iter, h]
  · simp [input_json_aux, input_json_iter, h]

/-- C3 witness at a concrete non-brace input. -/
theorem claim_c3_early_reject_witness :
    input_json_iter json_loads [] (toL "abc") = IterOut.cont [] true ∧
    input_json_aux json_loads [] [toL "abc"] = input_json_aux json_loads [] [] :=
  claim_c3_early_reject json_loads [] (toL "abc") [] (by decide)

/-- C4: an index outside the catalog range (negative, or at/after the
length — which covers every index against an empty catalog) makes
`cmd_show_tool_schema` return no name and raise nothing; consequently a
digit command whose 1-based index is out of range makes the command loop
take no further action at all — no argument prompt, no output, the run is
identical to one without that command. -/
theorem claim_c4_out_of_range :
    (∀ (tools : List Tool) (i : Int), (i < 0 ∨ (tools.length : Int) ≤ i) →
        cmd_show_tool_schema tools i = none) ∧
    (∀ (callTool : List Char → Json → CallOutcome) (tools : List Tool)
        (cmd : List Char) (rest : List (List Char)),
        pyIsDigit (pyStrip cmd) = true →
        ((digitsToNat (pyStrip cmd) : Int) - 1 < 0 ∨
          (tools.length : Int) ≤ (digitsToNat (pyStrip cmd) : Int) - 1) →
        cmd_loop_run callTool tools Mode.command (cmd :: rest) =
          cmd_loop_run callTool tools Mode.command rest) := by
  refine ⟨show_schema_none, ?_⟩
  intro callTool tools cmd rest hdig hrange
  have hne : ¬ pyStrip cmd = [] := by
    intro h
    rw [h] at hdig
    exact absurd hdig (by decide)
  have hlist : ¬ pyStrip cmd = toL "list" := by
    intro h; rw [h] at hdig; exact absurd hdig (by decide)
  have hdump : ¬ pyStrip cmd = toL "dump" := by
    intro h; rw [h] at hdig; exact absurd hdig (by decide)
  have hquit : ¬ pyStrip cmd = toL "quit" := by
    intro h; rw [h] at hdig; exact absurd hdig (by decide)
  simp [cmd_loop_run, hne, hlist, hdump, hquit, hdig, show_schema_none tools _ hrange]

/-- C4 witness: the claim's scenario — command `"3"` against a two-tool
catalog — and `cmd_show_tool_schema` on an empty catalog at index 0. -/
theorem claim_c4_out_of_range_witness :
    cmd_show_tool_schema [] 0 = none ∧
    cmd_loop_run ctDummy toolsTwo Mode.command [toL "3", toL "quit"] =
      cmd_loop_run ctDummy toolsTwo Mode.command [toL "quit"] :=
  ⟨claim_c4_out_of_range.1 [] 0 (by decide),
   claim_c4_out_of_range.2 ctDummy toolsTwo (toL "3") [toL "quit"] (by decide) (by decide)⟩

/-- C5 counterexample: the claim says stdio targets are split on the first
whitespace run, but the code splits on the first space character
(`split(" ", 1)`): a target whose first whitespace is a tab is not split at
all — the whole text becomes the command and the argument list is empty. -/
theorem claim_c5_counterexample :
    mkTransportConfig (toL "npx\t-y") (toL "stdio") [] ≠
      TransportConfig.stdio (toL "npx") [toL "-y"] [] ∧
    mkTransportConfig (toL "npx\t-y") (toL "stdio") [] =
      TransportConfig.stdio (toL "npx\t-y") [] [] :=
  ⟨by decide, rfl⟩

/-- C5 (amended: the split is on the first space character, not on the
first whitespace run): the claim's scenario holds for any header map, the
header map is always passed through as the stdio environment, and in
general the command is the stripped target up to the first space with the
remainder split on whitespace runs. -/
theorem claim_c5_stdio_split :
    (∀ env, mkTransportConfig (toL "npx -y server-x --flag") (toL "stdio") env =
        TransportConfig.stdio (toL "npx") [toL "-y", toL "server-x", toL "--flag"] env) ∧
    (∀ url env, mkTransportConfig url (toL "stdio") env =
        TransportConfig.stdio (splitFirstSpace (pyStrip url)).1
          (match (splitFirstSpace (pyStrip url)).2 with
           | some r => pySplitWs r
           | none => []) env) := by
  constructor
  · intro env; rfl
  · intro url env
    unfold mkTransportConfig
    rw [if_pos rfl]
    rcases h : (splitFirstSpace (pyStrip url)).2 with _ | r <;> simp [h]

/-- C6: a text segment whose payload parses as JSON is re-serialized with
2-space indentation and non-ASCII preserved; one that does not parse is
printed verbatim; rendering is total — the parse failure is an ordinary
branch.  Includes the claim's scenarios and a non-ASCII payload. -/
theorem claim_c6_render_text :
    (∀ s v, json_loads s = some v → render_segment (Segment.text s) = json_dumps v) ∧
    (∀ s, json_loads s = none → render_segment (Segment.text s) = s) ∧
    render_segment (Segment.text (toL "\x7b\"a\":1\x7d")) = toL "\x7b\n  \"a\": 1\n\x7d" ∧
    render_segment (Segment.text (toL "plain")) = toL "plain" ∧
    render_segment (Segment.text (toL "\x7b\"x\":\"日\"\x7d")) = toL "\x7b\n  \"x\": \"日\"\n\x7d" := by
  refine ⟨?_, ?_, ?_, rfl, ?_⟩
  · intro s v h; simp [render_segment, h]
  · intro s h; simp [render_segment, h]
  · have h1 : json_loads (toL "\x7b\"a\":1\x7d") = some (Json.obj [(toL "a", Json.num 1)]) := rfl
    have h2 : jsonFuel (Json.obj [(toL "a", Json.num 1)]) = 2 := by
      simp [jsonFuel, jsonFuelO, jsonFuelA]
    calc render_segment (Segment.text (toL "\x7b\"a\":1\x7d"))
        = json_dumps (Json.obj [(toL "a", Json.num 1)]) := by simp [render_segment, h1]
      _ = dumps_fuel 2 0 (Json.obj [(toL "a", Json.num 1)]) := by rw [json_dumps, h2]
      _ = toL "\x7b\n  \"a\": 1\n\x7d" := rfl
  · have h1 : json_loads (toL "\x7b\"x\":\"日\"\x7d") =
        some (Json.obj [(toL "x", Json.str (toL "日"))]) := rfl
    have h2 : jsonFuel (Json.obj [(toL "x", Json.str (toL "日"))]) = 2 := by
      simp [jsonFuel, jsonFuelO, jsonFuelA]
    calc render_segment (Segment.text (toL "\x7b\"x\":\"日\"\x7d"))
        = json_dumps (Json.obj [(toL "x", Json.str (toL "日"))]) := by simp [render_segment, h1]
      _ = dumps_fuel 2 0 (Json.obj [(toL "x", Json.str (toL "日"))]) := by rw [json_dumps, h2]
      _ = toL "\x7b\n  \"x\": \"日\"\n\x7d" := rfl

/-- C6 witness: the parsing branch applied at the empty object. -/
theorem claim_c6_render_text_witness :
    render_segment (Segment.text (toL "\x7b\x7d")) = json_dumps (Json.obj []) :=
  claim_c6_render_text.1 (toL "\x7b\x7d") (Json.obj []) rfl

/-- C7: when the transport call for a tool raises, `cmd_call_tool` catches
it locally and prints the report naming the tool and the message, and the
command loop then simply continues in command mode with the same catalog
and the same transport — nothing propagates out of the loop. -/
theorem claim_c7_call_failure_absorbed :
    ∀ (callTool : List Char → Json → CallOutcome) (tool_name : List Char) (args : Json)
      (e : List Char),
      callTool tool_name args = CallOutcome.failMsg e →
      cmd_call_tool callTool tool_name args =
        [toL "call tool " ++ tool_name ++ toL " ...",
         toL "Failed to call tool \x27" ++ tool_name ++ toL "\x27: " ++ e] ∧
      (∀ (tools : List Tool) (buf line : List Char) (rest : List (List Char)),
        input_json_iter json_loads buf line = IterOut.ret args →
        cmd_loop_run callTool tools (Mode.readArgs tool_name buf) (line :: rest) =
          (cmd_call_tool callTool tool_name args ++
             (cmd_loop_run callTool tools Mode.command rest).1,
           (cmd_loop_run callTool tools Mode.command rest).2)) := by
  intro callTool tool_name args e h
  constructor
  · simp [cmd_call_tool, h]
  · intro tools buf line rest hiter
    simp [cmd_loop_run, hiter]

/-- C7 witness: the failing stub called on `alpha` with `\x7b\x7d` args. -/
theorem claim_c7_call_failure_absorbed_witness :
    cmd_call_tool ctDummy (toL "alpha") (Json.obj []) =
      [toL "call tool " ++ toL "alpha" ++ toL " ...",
       toL "Failed to call tool \x27" ++ toL "alpha" ++ toL "\x27: " ++ toL "boom"] ∧
    cmd_loop_run ctDummy toolsTwo (Mode.readArgs (toL "alpha") []) [toL "\x7b\x7d"] =
      (cmd_call_tool ctDummy (toL "alpha") (Json.obj []) ++
         (cmd_loop_run ctDummy toolsTwo Mode.command []).1,
       (cmd_loop_run ctDummy toolsTwo Mode.command []).2) :=
  ⟨(claim_c7_call_failure_absorbed ctDummy (toL "alpha") (Json.obj []) (toL "boom") rfl).1,
   (claim_c7_call_failure_absorbed ctDummy (toL "alpha") (Json.obj []) (toL "boom") rfl).2
     toolsTwo [] (toL "\x7b\x7d") [] rfl⟩

/-- C8: each header entry is split at its first colon with key and value
trimmed; an entry without a colon is reported invalid and skipped with the
map unchanged and nothing raised; a later duplicate key overwrites the
earlier value, as the concrete two-entry run shows. -/
theorem claim_c8_header_parsing :
    (∀ (hs : List (List Char)) (h : List Char), headerSplit h = none →
        parse_headers (hs ++ [h]) = ((parse_headers hs).1, (parse_headers hs).2 ++ [h])) ∧
    (∀ (hs : List (List Char)) (h k v : List Char), headerSplit h = some (k, v) →
        parse_headers (hs ++ [h]) =
          (dictInsert (parse_headers hs).1 (pyStrip k) (pyStrip v), (parse_headers hs).2)) ∧
    (∀ (m : List (List Char × List Char)) (k v : List Char),
        dictLookup (dictInsert m k v) k = some v) ∧
    dictLookup (parse_headers [toL "K: a", toL "K: b", toL "bad"]).1 (toL "K") =
      some (toL "b") ∧
    (parse_headers [toL "K: a", toL "K: b", toL "bad"]).2 = [toL "bad"] := by
  refine ⟨?_, ?_, ?_, rfl, rfl⟩
  · intro hs h hsplit
    simp [parse_headers, List.foldl_append, hsplit]
  · intro hs h k v hsplit
    simp [parse_headers, List.foldl_append, hsplit]
  · intro m k v
    induction m with
    | nil => simp [dictInsert, dictLookup]
    | cons kv tl ih =>
        by_cases hk : kv.1 = k
        · simp [dictInsert, dictLookup, hk]
        · simp [dictInsert, dictLookup, hk, ih]

/-- C8 witness: a colon-free entry is skipped and reported, and the
overwrite lemma at a concrete map. -/
theorem claim_c8_header_parsing_witness :
    parse_headers ([] ++ [toL "bad"]) = ((parse_headers []).1, (parse_headers []).2 ++ [toL "bad"]) ∧
    dictLookup (dictInsert [(toL "K", toL "a")] (toL "K") (toL "b")) (toL "K") = some (toL "b") :=
  ⟨claim_c8_header_parsing.1 [] (toL "bad") rfl,
   claim_c8_header_parsing.2.2.1 [(toL "K", toL "a")] (toL "K") (toL "b")⟩

/-- C9 counterexample: the claim says the non-http rejection applies only
when no explicit stdio kind is set; the code checks the entered url before
ever consulting the kind, so an interactively entered stdio command line is
rejected even with `-type stdio`. -/
theorem claim_c9_counterexample :
    main_url_flow [] (toL "stdio") (toL "npx -y server") = UrlOutcome.rejected := rfl

/-- C9 (amended: the rejection applies to every interactively entered
endpoint that does not start with `http`, regardless of the transport
kind): with no `-url` argument, a non-http entered endpoint always makes
the process report and exit. -/
theorem claim_c9_nonhttp_rejected :
    ∀ (arg_type entered : List Char),
      listStartsWith (toL "http") (pyStrip entered) = false →
      main_url_flow [] arg_type entered = UrlOutcome.rejected := by
  intro arg_type entered h
  simp [main_url_flow, h]

/-- C9 witness at a concrete non-http entry. -/
theorem claim_c9_nonhttp_rejected_witness :
    main_url_flow [] (toL "sse") (toL "ftp://host") = UrlOutcome.rejected :=
  claim_c9_nonhttp_rejected (toL "sse") (toL "ftp://host") (by decide)

/-- C10: a result that has the `content` attribute with an empty segment
list prints only the banner — the whole-result fallback is reserved for a
result without the attribute; in general the output is the banner followed
by exactly the rendered segments. -/
theorem claim_c10_empty_content :
    pretty_print_tool_result (ToolResult.withContent []) = [bannerLine] ∧
    (∀ segs, pretty_print_tool_result (ToolResult.withContent segs) =
        bannerLine :: segs.map render_segment) ∧
    (∀ rep, pretty_print_tool_result (ToolResult.noContentAttr rep) = [bannerLine, rep]) :=
  ⟨rfl, fun _ => rfl, fun _ => rfl⟩

/-- The trailing trim is Mathlib's `rdropWhile`. -/
theorem dropTrail_eq_rdropWhile (s : List Char) : dropTrail s = List.rdropWhile isPySpace s := rfl

/-- The predicate `noTrailWs` characterized by the last character. -/
theorem noTrailWs_iff {s : List Char} :
    noTrailWs s ↔ ∀ h : s ≠ [], ¬ isPySpace (s.getLast h) = true := by
  rw [noTrailWs, dropTrail_eq_rdropWhile]
  exact List.rdropWhile_eq_self_iff

/-- Appending two trailing-clean strings is trailing-clean. -/
theorem noTrailWs_append {x y : List Char} (hx : noTrailWs x) (hy : noTrailWs y) :
    noTrailWs (x ++ y) := by
  rcases eq_or_ne y [] with rfl | hne
  · simpa using hx
  · rw [noTrailWs_iff] at hy ⊢
    intro h
    rw [List.getLast_append h]
    simp only [List.isEmpty_iff, hne, dite_false]
    exact hy hne

/-- The empty string is trailing-clean. -/
theorem noTrailWs_nil : noTrailWs ([] : List Char) := rfl

/-- A concatenation of trailing-clean lines is trailing-clean. -/
theorem noTrailWs_flatten {p : List (List Char)} (h : ∀ s ∈ p, noTrailWs s) :
    noTrailWs p.flatten := by
  induction p with
  | nil => exact noTrailWs_nil
  | cons s rest ih =>
      rw [List.flatten_cons]
      exact noTrailWs_append (h s (by simp)) (ih fun t ht => h t (by simp [ht]))

/-- Re-dropping from the left after appending is the same as dropping from
the appended whole. -/
theorem dropWhile_append_dropWhile (q : Char → Bool) (a x : List Char) :
    List.dropWhile q (List.dropWhile q a ++ x) = List.dropWhile q (a ++ x) := by
  induction a with
  | nil => rfl
  | cons c cs ih =>
      by_cases h : q c
      · simpa [List.dropWhile_cons, h] using ih
      · simp [List.dropWhile_cons, h]

/-- When the left part survives the drop, dropping distributes over append. -/
theorem dropWhile_append_of_ne_nil (q : Char → Bool) {a : List Char} (x : List Char)
    (h : List.dropWhile q a ≠ []) :
    List.dropWhile q (a ++ x) = List.dropWhile q a ++ x := by
  induction a with
  | nil => exact absurd rfl h
  | cons c cs ih =>
      by_cases hc : q c
      · rw [List.dropWhile_cons] at h
        simp only [hc, if_true] at h
        simpa [List.dropWhile_cons, hc] using ih h
      · simp [List.dropWhile_cons, hc]

/-- A prefix of a list that survives `dropWhile` whole also survives it. -/
theorem dropWhile_eq_self_of_start {q : Char → Bool} {pr l : List Char}
    (hp : pr <+: l) (hl : List.dropWhile q l = l) : List.dropWhile q pr = pr := by
  cases pr with
  | nil => rfl
  | cons c pr2 =>
      obtain ⟨t, ht⟩ := hp
      have hc : q c = false := by
        by_contra hq
        rw [Bool.not_eq_false] at hq
        have h2 := hl
        rw [← ht, List.cons_append, List.dropWhile_cons, if_pos hq] at h2
        have h3 := congrArg List.length h2
        have h4 := (List.dropWhile_suffix (l := pr2 ++ t) q).sublist.length_le
        simp only [List.length_cons] at h3
        omega
      rw [List.dropWhile_cons, hc]
      simp

/-- For a trailing-clean accumulation, stripping the accumulation before
appending the next line is harmless. -/
theorem pyStrip_strip_append {a : List Char} (x : List Char) (ha : noTrailWs a) :
    pyStrip (pyStrip a ++ x) = pyStrip (a ++ x) := by
  have h1 : noTrailWs (dropLead a) := by
    have hpre2 : (dropLead a).reverse <+: a.reverse := by
      rw [ List.reverse_prefix]
      exact List.dropWhile_suffix isPySpace
    have ha2 : (List.dropWhile isPySpace a.reverse).reverse = a := ha
    rw [List.reverse_eq_iff] at ha2
    show (List.dropWhile isPySpace (dropLead a).reverse).reverse = dropLead a
    rw [List.reverse_eq_iff]
    exact dropWhile_eq_self_of_start hpre2 ha2
  have h2 : pyStrip a = dropLead a := h1
  rw [h2]
  show dropTrail (List.dropWhile isPySpace (List.dropWhile isPySpace a ++ x)) =
    dropTrail (List.dropWhile isPySpace (a ++ x))
  rw [dropWhile_append_dropWhile]

/-- One accumulation step: strip-concat with the next line equals the strip
of the flatten extended by that line. -/
theorem strip_flatten_step {p : List (List Char)} (l0 : List Char)
    (hp : ∀ s ∈ p, noTrailWs s) :
    pyStrip (pyStrip p.flatten ++ l0) = pyStrip ((p ++ [l0]).flatten) := by
  rw [pyStrip_strip_append l0 (noTrailWs_flatten hp), List.flatten_append]
  simp

/-- Starting with a single-character needle is a statement about `head?`. -/
theorem startsWith_singleton_iff {c : Char} {l : List Char} :
    listStartsWith [c] l = true ↔ l.head? = some c := by
  cases l with
  | nil => simp [listStartsWith]
  | cons h t => simp [listStartsWith, eq_comm]

/-- A nonempty stripped prefix of a text begins with the same character as
the stripped whole text. -/
theorem pyStrip_prefix_head {u : List Char} (w : List Char) (hne : pyStrip u ≠ []) :
    (pyStrip u).head? = (pyStrip (u ++ w)).head? := by
  have key : ∀ z : List Char, pyStrip z ≠ [] → (pyStrip z).head? = (dropLead z).head? := by
    intro z hz
    obtain ⟨t, ht⟩ := List.rdropWhile_prefix isPySpace (dropLead z)
    conv_rhs => rw [← ht]
    rw [List.head?_append_of_ne_nil (List.rdropWhile isPySpace (dropLead z)) hz]
    rfl
  have hdl : dropLead u ≠ [] := by
    intro h
    apply hne
    show dropTrail (dropLead u) = []
    rw [h]
    rfl
  obtain ⟨c, cs, hcs⟩ : ∃ c cs, dropLead u = c :: cs := by
    rcases hh : dropLead u with _ | ⟨c, cs⟩
    · exact absurd hh hdl
    · exact ⟨c, cs, rfl⟩
  have hcns : isPySpace c = false := by
    have hho : (List.dropWhile isPySpace u).head? = some c := by
      rw [show List.dropWhile isPySpace u = c :: cs from hcs]
      rfl
    have hh2 : (List.dropWhile isPySpace u).head hdl = c := by
      have := List.head?_eq_head (l := List.dropWhile isPySpace u) hdl
      rw [hho] at this
      exact (Option.some.inj this).symm
    rw [← hh2]
    exact List.head_dropWhile_not isPySpace u hdl
  have h4 : dropLead (u ++ w) = dropLead u ++ w := dropWhile_append_of_ne_nil isPySpace w hdl
  have h5 : pyStrip (u ++ w) ≠ [] := by
    show dropTrail (dropLead (u ++ w)) ≠ []
    rw [h4, hcs, dropTrail_eq_rdropWhile]
    intro hnil
    rw [List.rdropWhile_eq_nil_iff] at hnil
    have := hnil c (by simp)
    rw [hcns] at this
    exact Bool.false_ne_true this
  calc (pyStrip u).head?
      = (dropLead u).head? := key u hne
    _ = (dropLead u ++ w).head? := (List.head?_append_of_ne_nil _ hdl).symm
    _ = (dropLead (u ++ w)).head? := by rw [h4]
    _ = (pyStrip (u ++ w)).head? := (key (u ++ w) h5).symm

/-- Starting with the brace, via `head?`. -/
theorem startsWith_brace_iff {l : List Char} :
    listStartsWith (toL "\x7b") l = true ↔ l.head? = some '\x7b' := by
  rw [show toL "\x7b" = ['\x7b'] from rfl]
  exact startsWith_singleton_iff

/-- One unfolding step of the reader loop. -/
theorem input_json_aux_cons (parse : List Char → Option Json) (buf l : List Char)
    (rest : List (List Char)) :
    input_json_aux parse buf (l :: rest) =
      match input_json_iter parse buf l with
      | IterOut.ret v => some (v, rest)
      | IterOut.cont b _ => input_json_aux parse b rest := rfl

/-- Core run of `input_json_aux` for C2: when the remaining lines are
trailing-clean, the stripped flatten of all lines starts with a brace and
parses, and every shorter accumulation does not parse, the reader consumes
exactly the remaining lines and returns the parse of the full accumulation. -/
theorem input_json_aux_spec :
    ∀ (rest p : List (List Char)) (v : Json),
      rest ≠ [] →
      (∀ s ∈ p ++ rest, noTrailWs s) →
      listStartsWith (toL "\x7b") (pyStrip (p ++ rest).flatten) = true →
      json_loads (pyStrip (p ++ rest).flatten) = some v →
      (∀ k, k < (p ++ rest).length →
        json_loads (pyStrip ((p ++ rest).take k).flatten) = none) →
      input_json_aux json_loads (pyStrip p.flatten) rest = some (v, []) := by
  intro rest
  induction rest with
  | nil => intro p v h _ _ _ _; exact absurd rfl h
  | cons l0 rest' ih =>
      intro p v _ htrail hbrace hall hpre
      have hps : ∀ s ∈ p, noTrailWs s := fun s hs => htrail s (by simp [hs])
      have hbuf : pyStrip (pyStrip p.flatten ++ l0) = pyStrip ((p ++ [l0]).flatten) :=
        strip_flatten_step l0 hps
      have hfl : (p ++ [l0]).flatten = p.flatten ++ l0 := by simp
      rw [hfl] at hbuf
      cases rest' with
      | nil =>
          rw [hfl] at hbrace hall
          rw [input_json_aux_cons]
          simp only [input_json_iter, hbuf]
          rw [hbrace, hall]
          simp
      | cons l1 tl =>
          have hfull : (p ++ [l0]) ++ (l1 :: tl) = p ++ l0 :: l1 :: tl := by simp
          have hnone : json_loads (pyStrip (p.flatten ++ l0)) = none := by
            have hk := hpre (p ++ [l0]).length (by simp)
            rw [← hfull, List.take_left, hfl] at hk
            exact hk
          have hres := ih (p ++ [l0]) v (by simp) (by rw [hfull]; exact htrail)
            (by rw [hfull]; exact hbrace) (by rw [hfull]; exact hall)
            (by rw [hfull]; exact hpre)
          rw [hfl] at hres
          by_cases hsw : listStartsWith (toL "\x7b") (pyStrip (p.flatten ++ l0)) = true
          · rw [input_json_aux_cons]
            simp only [input_json_iter, hbuf]
            rw [hsw, hnone]
            simpa using hres
          · have hB : pyStrip (p.flatten ++ l0) = [] := by
              by_contra hBne
              apply hsw
              rw [startsWith_brace_iff]
              rw [pyStrip_prefix_head ((l1 :: tl).flatten) hBne]
              rw [show (p.flatten ++ l0) ++ (l1 :: tl).flatten =
                    (p ++ l0 :: l1 :: tl).flatten from by simp]
              exact startsWith_brace_iff.mp hbrace
            rw [hB] at hres
            rw [Bool.not_eq_true] at hsw
            rw [input_json_aux_cons]
            simp only [input_json_iter, hbuf]
            rw [hsw]
            simpa using hres

/-- C2 (amended: the statement holds as written provided no supplied line
carries trailing whitespace — true in particular of standard pretty-printed
JSON; the counterexample shows that with trailing whitespace at a line
break inside a string literal the reader still returns after the N-th line,
but the stripping done at each accumulation step loses that whitespace, so
the returned value can differ from the supplied object): for a JSON object
supplied across N trailing-clean lines such that no accumulation of fewer
than N lines parses, the reader returns its parsed value exactly when the
N-th line is consumed — all lines consumed, none left, and no earlier
return. -/
theorem claim_c2_reader_multiline (l : List (List Char)) (v : Json)
    (hne : l ≠ [])
    (htrail : ∀ s ∈ l, noTrailWs s)
    (hbrace : listStartsWith (toL "\x7b") (pyStrip l.flatten) = true)
    (hall : json_loads (pyStrip l.flatten) = some v)
    (hpre : ∀ k, k < l.length → json_loads (pyStrip (l.take k).flatten) = none) :
    input_json l = some (v, []) := by
  have h := input_json_aux_spec l [] v hne (by simpa using htrail) (by simpa using hbrace)
    (by simpa using hall) (by simpa using hpre)
  rw [show pyStrip (([] : List (List Char)).flatten) = [] from rfl] at h
  exact h

/-- C2 witness: the object `\x7b"a":1\x7d` supplied across two lines. -/
theorem claim_c2_reader_multiline_witness :
    input_json [toL "\x7b\"a\":", toL "1\x7d"] =
      some (Json.obj [(toL "a", Json.num 1)], []) :=
  claim_c2_reader_multiline [toL "\x7b\"a\":", toL "1\x7d"] (Json.obj [(toL "a", Json.num 1)])
    (by decide) (by decide) (by decide) rfl
    (fun k hk => by
      match k with
      | 0 => exact rfl
      | 1 => exact rfl
      | n + 2 => exact absurd hk (by simp))

/-- C2 counterexample: the claim as stated fails — the supplied two-line
object `\x7b"key one": 1\x7d`, split right after the space inside the string
literal, has no 1-line accumulation that parses, yet the reader returns
`\x7b"keyone": 1\x7d` (the trailing space of line 1 is stripped during
accumulation), which is not the parsed value of the supplied object. -/
theorem claim_c2_counterexample :
    input_json [toL "\x7b\"key ", toL "one\": 1\x7d"] =
      some (Json.obj [(toL "keyone", Json.num 1)], []) ∧
    json_loads (pyStrip ([toL "\x7b\"key ", toL "one\": 1\x7d"] : List (List Char)).flatten) =
      some (Json.obj [(toL "key one", Json.num 1)]) ∧
    json_loads (pyStrip (([toL "\x7b\"key ", toL "one\": 1\x7d"] :
      List (List Char)).take 1).flatten) = none ∧
    json_loads (pyStrip (([toL "\x7b\"key ", toL "one\": 1\x7d"] :
      List (List Char)).take 0).flatten) = none ∧
    Json.obj [(toL "keyone", Json.num 1)] ≠ Json.obj [(toL "key one", Json.num 1)] :=
  ⟨rfl, rfl, rfl, rfl, fun h => absurd (congrArg firstKeyOf h) (by decide)⟩
